import Mathlib

/-!
Verification of the electron file adapter (`src/electron/File.js`) of the
cordova-plugin-file repository.  The JavaScript operations are shallowly
embedded as pure Lean functions over an explicit filesystem state; the
Node `fs` primitives (stat, open, unlink, rmdir, copyFile, read, write)
are modelled as operations on that state.  Promise resolution/rejection
becomes `Except`, and the JavaScript distinction between a typed
`FileError` sentinel and a raw native error object is kept by the
`Rejection` type.
-/

/-- The twelve fixed error-kind sentinels of the plugin (`FileError` in
`Types.js`), as referenced by `File.js`. -/
inductive FileError where
  | NOT_FOUND_ERR
  | SECURITY_ERR
  | ABORT_ERR
  | NOT_READABLE_ERR
  | ENCODING_ERR
  | NO_MODIFICATION_ALLOWED_ERR
  | INVALID_STATE_ERR
  | SYNTAX_ERR
  | INVALID_MODIFICATION_ERR
  | QUOTA_EXCEEDED_ERR
  | TYPE_MISMATCH_ERR
  | PATH_EXISTS_ERR
deriving DecidableEq, Repr

/-- A value delivered to a rejected promise: either one of the fixed
`FileError` sentinels, or a raw native error (identified by its Node
error code) that escaped uncaught.  `File.js` is supposed to reject only
with `FileError` values; the `native` constructor records the places
where a raw Node error can cross the API boundary. -/
inductive Rejection where
  | fe (e : FileError)
  | native (code : String)
deriving DecidableEq, Repr

/-- `true` iff the rejection value is one of the twelve fixed sentinels. -/
def Rejection.isFixedTag : Rejection → Bool
  | Rejection.fe _ => true
  | Rejection.native _ => false

/-- A node of the modelled filesystem: a regular file with its byte
content, or a directory.  (Timestamps are not modelled; file size is the
content length.) -/
inductive FsNode where
  | file (content : List Nat)
  | dir
deriving DecidableEq, Repr

/-- The filesystem state.  `entries` maps absolute paths to nodes
(directory paths carry a trailing separator, so a child of directory `d/`
has a path of the form `d/` ++ name, matching the concatenation
convention of `File.js`).  `denied` lists paths on which the native
removal primitives (`fs.unlink` / `fs.rmdir`) fail with a permission
error (EACCES/EPERM); it models OS-level write protection used to
exercise failure paths of the removal step. -/
structure FS where
  entries : List (String × FsNode)
  denied : List String
deriving DecidableEq, Repr

/-- First-match lookup of a path in the entry list. -/
def lookupP (p : String) : List (String × FsNode) → Option FsNode
  | [] => none
  | (q, n) :: t => if q = p then some n else lookupP p t

/-- Drop every binding of path `p` from the entry list. -/
def eraseKey (p : String) : List (String × FsNode) → List (String × FsNode)
  | [] => []
  | (q, n) :: t => if q = p then eraseKey p t else (q, n) :: eraseKey p t

/-- `fs.stat`: look the path up; `none` models an ENOENT failure. -/
def stat (fs : FS) (p : String) : Option FsNode :=
  lookupP p fs.entries

/-- Write (create or overwrite) the binding of path `p`. -/
def setEntry (fs : FS) (p : String) (n : FsNode) : FS :=
  { fs with entries := (p, n) :: eraseKey p fs.entries }

/-- Drop the binding of path `p`. -/
def removeEntry (fs : FS) (p : String) : FS :=
  { fs with entries := eraseKey p fs.entries }

/-- `true` iff `q` has `p` as a (string) prefix, i.e. `q` lies below the
directory path `p` under the trailing-separator convention. -/
def prefixB (p q : String) : Bool :=
  List.isPrefixOf p.data q.data

/-- `true` iff some other entry lies strictly below path `p`: the
condition under which a plain (non-recursive) `fs.rmdir` fails with
ENOTEMPTY. -/
def hasChild (fs : FS) (p : String) : Bool :=
  fs.entries.any (fun e => e.1 != p && prefixB p e.1)

/-- `fs.unlink`: fails (returns `none`) on a write-protected path. -/
def unlink (fs : FS) (p : String) : Option FS :=
  if fs.denied.contains p then none else some (removeEntry fs p)

/-- `fs.rmdir` with no options: plain non-recursive directory removal.
Fails on a write-protected path or a non-empty directory (ENOTEMPTY). -/
def rmdirPlain (fs : FS) (p : String) : Option FS :=
  if fs.denied.contains p || hasChild fs p then none
  else some (removeEntry fs p)

/-- `nodePath.basename`: the last path component, ignoring trailing
separators. -/
def basename (p : String) : String :=
  let noTrail := ((p.data.reverse.dropWhile (fun c => c == '/')).reverse)
  String.mk ((noTrail.reverse.takeWhile (fun c => c != '/')).reverse)

/-- The entry objects (`FileEntry` / `DirectoryEntry` of `Types.js`)
returned by successful operations: a name, a full path and a kind. -/
structure Entry where
  name : String
  fullPath : String
  isDirectory : Bool
deriving DecidableEq, Repr

/-- The `{create, exclusive}` options of `getFile`/`getDirectory`
(absent options behave as both `false`, per `args[2] || {}`). -/
structure CreationOptions where
  create : Bool
  exclusive : Bool
deriving DecidableEq, Repr

/-- `exports.getFile(parentPath, name, options)`, lines 88-148 of
`File.js`.  The path is `args[0] ++ args[1]`; the decision follows the
source's branch order on `(create, exclusive, exists, isFile)`.
`createFile` (an `fs.open(path, 'w')` followed by close) truncates an
existing file or creates an empty one; in the model this native step
always succeeds, so the INVALID_STATE branches for stat/open failures
other than ENOENT are not represented. -/
def getFile (fs : FS) (parent name : String) (opts : CreationOptions) :
    Except FileError Entry × FS :=
  let path := parent ++ name
  match stat fs path with
  | some node =>
      if opts.create && opts.exclusive then
        (Except.error FileError.PATH_EXISTS_ERR, fs)
      else if opts.create then
        match node with
        | FsNode.file _ =>
            (Except.ok ⟨basename path, path, false⟩,
             setEntry fs path (FsNode.file []))
        | FsNode.dir => (Except.error FileError.INVALID_MODIFICATION_ERR, fs)
      else
        match node with
        | FsNode.dir => (Except.error FileError.TYPE_MISMATCH_ERR, fs)
        | FsNode.file _ => (Except.ok ⟨basename path, path, false⟩, fs)
  | none =>
      if opts.create then
        (Except.ok ⟨basename path, path, false⟩,
         setEntry fs path (FsNode.file []))
      else (Except.error FileError.NOT_FOUND_ERR, fs)

/-- `exports.getDirectory(parentPath, name, options)`, lines 314-364 of
`File.js`.  Same decision shape as `getFile` with `fs.mkdir` as the
creation step (modelled as succeeding; its failure branch maps to
PATH_EXISTS in the source) and the file/directory roles swapped in the
type-mismatch branches. -/
def getDirectory (fs : FS) (parent name : String) (opts : CreationOptions) :
    Except FileError Entry × FS :=
  let path := parent ++ name
  match stat fs path with
  | some node =>
      if opts.create && opts.exclusive then
        (Except.error FileError.PATH_EXISTS_ERR, fs)
      else if opts.create then
        match node with
        | FsNode.dir => (Except.ok ⟨basename path, path, true⟩, fs)
        | FsNode.file _ =>
            (Except.error FileError.INVALID_MODIFICATION_ERR, fs)
      else
        match node with
        | FsNode.file _ => (Except.error FileError.TYPE_MISMATCH_ERR, fs)
        | FsNode.dir => (Except.ok ⟨basename path, path, true⟩, fs)
  | none =>
      if opts.create then
        (Except.ok ⟨basename path, path, true⟩, setEntry fs path FsNode.dir)
      else (Except.error FileError.NOT_FOUND_ERR, fs)

/-- Claim C1: for every parent path `p` and name `n` such that `p ++ n`
already exists in the filesystem — whether as a file or as a directory —
`getFile(p, n, {create:true, exclusive:true})` fails with PATH_EXISTS
and leaves the filesystem untouched. -/
theorem c1_getFile_create_exclusive_exists (fs : FS) (p n : String)
    (node : FsNode) (h : stat fs (p ++ n) = some node) :
    getFile fs p n ⟨true, true⟩ = (Except.error FileError.PATH_EXISTS_ERR, fs) := by
  simp [getFile, h]

/-- Claim C1 witness: a concrete filesystem where `a/b` exists as a
directory. -/
theorem c1_witness :
    getFile ⟨[("a/b", FsNode.dir)], []⟩ "a/" "b" ⟨true, true⟩ =
      (Except.error FileError.PATH_EXISTS_ERR, ⟨[("a/b", FsNode.dir)], []⟩) :=
  c1_getFile_create_exclusive_exists ⟨[("a/b", FsNode.dir)], []⟩ "a/" "b"
    FsNode.dir (by decide)

/-- `exports.remove(path)`, lines 254-274 of `File.js`: probe with
`fs.stat` (missing → NOT_FOUND), then dispatch on the node kind to
`fs.rmdir` (plain, non-recursive) or `fs.unlink`; any removal failure
maps to NO_MODIFICATION_ALLOWED. -/
def remove (fs : FS) (fullPath : String) : Except FileError Unit × FS :=
  match stat fs fullPath with
  | none => (Except.error FileError.NOT_FOUND_ERR, fs)
  | some FsNode.dir =>
      match rmdirPlain fs fullPath with
      | none => (Except.error FileError.NO_MODIFICATION_ALLOWED_ERR, fs)
      | some fs1 => (Except.ok (), fs1)
  | some (FsNode.file _) =>
      match unlink fs fullPath with
      | none => (Except.error FileError.NO_MODIFICATION_ALLOWED_ERR, fs)
      | some fs1 => (Except.ok (), fs1)

/-- `exports.removeRecursively(path)`, lines 292-312 of `File.js`.  The
source intends a recursive+force removal, but it passes the options
object `{ recursive: true, force: true }` as a *third* argument, after
the callback: `rm(fullPath, (err) => {...}, { recursive: true, force:
true })`.  Node's `fs.rmdir(path[, options], callback)` binds the second
argument as the callback when it is a function and ignores trailing
arguments, so the removal actually performed is the plain non-recursive
`fs.rmdir` (or `fs.unlink` for a file) — identical to `remove`. -/
def removeRecursively (fs : FS) (fullPath : String) : Except FileError Unit × FS :=
  match stat fs fullPath with
  | none => (Except.error FileError.NOT_FOUND_ERR, fs)
  | some FsNode.dir =>
      match rmdirPlain fs fullPath with
      | none => (Except.error FileError.NO_MODIFICATION_ALLOWED_ERR, fs)
      | some fs1 => (Except.ok (), fs1)
  | some (FsNode.file _) =>
      match unlink fs fullPath with
      | none => (Except.error FileError.NO_MODIFICATION_ALLOWED_ERR, fs)
      | some fs1 => (Except.ok (), fs1)

/-- Looking up the very key `eraseKey` removed yields nothing. -/
theorem lookup_eraseKey_self (l : List (String × FsNode)) (p : String) :
    lookupP p (eraseKey p l) = none := by
  induction l with
  | nil => rfl
  | cons hd tl ih =>
      rcases hd with ⟨a, b⟩
      by_cases h : a = p
      · simp [eraseKey, h, ih]
      · simp [eraseKey, lookupP, h, ih]

/-- Erasing key `p` does not affect lookups of a different key. -/
theorem lookup_eraseKey_other (l : List (String × FsNode)) (p q : String)
    (h : q ≠ p) :
    lookupP q (eraseKey p l) = lookupP q l := by
  induction l with
  | nil => rfl
  | cons hd tl ih =>
      rcases hd with ⟨a, b⟩
      by_cases h1 : a = p
      · simp [eraseKey, h1, lookupP, Ne.symm h, ih]
      · simp [eraseKey, h1, lookupP, ih]

/-- `stat` after `setEntry` at the written path sees the new node. -/
theorem stat_setEntry_self (fs : FS) (p : String) (n : FsNode) :
    stat (setEntry fs p n) p = some n := by
  simp [stat, setEntry, lookupP]

/-- `stat` after `setEntry` at a different path is unchanged. -/
theorem stat_setEntry_other (fs : FS) (p q : String) (n : FsNode)
    (h : q ≠ p) : stat (setEntry fs p n) q = stat fs q := by
  simp [stat, setEntry, lookupP, Ne.symm h, lookup_eraseKey_other _ _ _ h]

/-- `stat` after `removeEntry` at the removed path sees nothing. -/
theorem stat_removeEntry_self (fs : FS) (p : String) :
    stat (removeEntry fs p) p = none := by
  simp [stat, removeEntry, lookup_eraseKey_self]

/-- `stat` after `removeEntry` at a different path is unchanged. -/
theorem stat_removeEntry_other (fs : FS) (p q : String) (h : q ≠ p) :
    stat (removeEntry fs p) q = stat fs q := by
  simp [stat, removeEntry, lookup_eraseKey_other _ _ _ h]

/-- Claim C2 (code bug): `removeRecursively` on a non-empty directory is
supposed to succeed with recursive+force semantics, but because the
options are passed after the callback the underlying call is a plain
non-recursive `fs.rmdir`, which fails ENOTEMPTY; the operation rejects
with NO_MODIFICATION_ALLOWED and removes nothing.  Concretely: a
directory `d/` containing one file `d/x`. -/
theorem c2_removeRecursively_nonEmpty_fails :
    removeRecursively ⟨[("d/", FsNode.dir), ("d/x", FsNode.file [])], []⟩ "d/" =
      (Except.error FileError.NO_MODIFICATION_ALLOWED_ERR,
       ⟨[("d/", FsNode.dir), ("d/x", FsNode.file [])], []⟩) := by
  rfl

/-- Claim C10: `getDirectory(p, n, {create:true, exclusive:false})` on an
existing directory returns the entry for it and performs no filesystem
mutation at all (the state is returned unchanged), while `getFile` under
the same flags on an existing file truncate-recreates it (the path is
rebound to an empty file). -/
theorem c10_getDirectory_existing_no_mutation (fs : FS) (p n : String) :
    (stat fs (p ++ n) = some FsNode.dir →
      getDirectory fs p n ⟨true, false⟩ =
        (Except.ok ⟨basename (p ++ n), p ++ n, true⟩, fs))
    ∧ (∀ c, stat fs (p ++ n) = some (FsNode.file c) →
      getFile fs p n ⟨true, false⟩ =
        (Except.ok ⟨basename (p ++ n), p ++ n, false⟩,
         setEntry fs (p ++ n) (FsNode.file []))) := by
  constructor
  · intro h
    simp [getDirectory, h]
  · intro c h
    simp [getFile, h]

/-- Claim C10 witness: a directory `d/x` is returned untouched; a file
`d/y` is truncated to empty under the same flags. -/
theorem c10_witness :
    getDirectory ⟨[("d/x", FsNode.dir)], []⟩ "d/" "x" ⟨true, false⟩ =
      (Except.ok ⟨basename ("d/" ++ "x"), "d/" ++ "x", true⟩,
       ⟨[("d/x", FsNode.dir)], []⟩)
    ∧ getFile ⟨[("d/y", FsNode.file [3])], []⟩ "d/" "y" ⟨true, false⟩ =
      (Except.ok ⟨basename ("d/" ++ "y"), "d/" ++ "y", false⟩,
       setEntry ⟨[("d/y", FsNode.file [3])], []⟩ ("d/" ++ "y") (FsNode.file [])) :=
  ⟨(c10_getDirectory_existing_no_mutation ⟨[("d/x", FsNode.dir)], []⟩ "d/" "x").1
     (by decide),
   (c10_getDirectory_existing_no_mutation ⟨[("d/y", FsNode.file [3])], []⟩ "d/" "y").2
     [3] (by decide)⟩

/-- The `data` argument of `exports.write` as it arrives over the
bridge: absent, a JavaScript string, or a binary payload (ArrayBuffer /
typed array, carried as its byte list). -/
inductive WriteData where
  | undef
  | str (s : String)
  | bytes (bs : List Nat)
deriving DecidableEq, Repr

/-- JavaScript falsiness of the `data` argument, as tested by `if
(!data)` in `write`: `undefined` and the empty string are falsy; any
array-like object is truthy, even when it holds zero bytes. -/
def WriteData.falsy : WriteData → Bool
  | WriteData.undef => true
  | WriteData.str s => s = ""
  | WriteData.bytes _ => false

/-- `Buffer.from(data)`: the byte content of the payload (UTF-16 code
units are abstracted to one byte list per character for the string
case; the `undef` case is unreachable behind the falsiness guard). -/
def bufOf : WriteData → List Nat
  | WriteData.undef => []
  | WriteData.str s => s.data.map Char.toNat
  | WriteData.bytes bs => bs

/-- `fs.open(fileName, 'a')`: fails with the raw Node error EISDIR on a
directory; creates an empty file when the path is missing; otherwise
returns the current content.  The pair is (content seen by the handle,
state after the open). -/
def openAppend (fs : FS) (p : String) : Except String (List Nat × FS) :=
  match stat fs p with
  | some FsNode.dir => Except.error "EISDIR"
  | some (FsNode.file c) => Except.ok (c, fs)
  | none => Except.ok ([], setEntry fs p (FsNode.file []))

/-- The content effect of `fs.write(fd, buf, 0, buf.length, position)`:
the buffer is placed at the given absolute position (zero-padding any
gap), leaving bytes beyond the written range unchanged. -/
def writeAt (content : List Nat) (position : Nat) (buf : List Nat) : List Nat :=
  content.take position ++ List.replicate (position - content.length) 0 ++
    buf ++ content.drop (position + buf.length)

/-- `exports.write(fileName, data, position)`, lines 196-215 of
`File.js`.  A falsy `data` is rejected synchronously with
INVALID_MODIFICATION before any filesystem interaction.  Otherwise the
file is opened with `promisify(fs.open)(fileName, 'a')` — note that the
source attaches no `.catch` mapping to a `FileError` here, so an open or
write failure propagates the raw Node error to the caller (modelled by
`Rejection.native`).  On success the promise resolves with the number of
bytes written. -/
def write (fs : FS) (fileName : String) (data : WriteData) (position : Nat) :
    Except Rejection Nat × FS :=
  if data.falsy then
    (Except.error (Rejection.fe FileError.INVALID_MODIFICATION_ERR), fs)
  else
    match openAppend fs fileName with
    | Except.error code => (Except.error (Rejection.native code), fs)
    | Except.ok (c, fs1) =>
        let buf := bufOf data
        (Except.ok buf.length,
         setEntry fs1 fileName (FsNode.file (writeAt c position buf)))

/-- The representation selector of the shared `readAs` helper. -/
inductive ReadKind where
  | text
  | dataURL
  | binaryString
  | arrayBuffer
deriving DecidableEq, Repr

/-- The value a successful `readAs` resolves with: the raw bytes read,
tagged with the requested representation (the byte-to-text/base64
transcoding itself is an external utility per the spec's scope and is
not re-modelled). -/
inductive ReadResult where
  | text (bytes : List Nat) (enc : Option String)
  | dataURL (bytes : List Nat)
  | binaryString (bytes : List Nat)
  | arrayBuffer (bytes : List Nat)
deriving DecidableEq, Repr

/-- `Buffer.alloc(endPos - startPos)` filled by
`fs.read(fd, buf, 0, buf.length, startPos)`: bytes past the end of the
file keep the zero fill. -/
def readRange (c : List Nat) (startPos endPos : Nat) : List Nat :=
  (List.range (endPos - startPos)).map (fun i => c.getD (startPos + i) 0)

/-- The `switch (what)` of `readAs`, tagging the bytes read. -/
def convert (kind : ReadKind) (enc : Option String) (buf : List Nat) : ReadResult :=
  match kind with
  | ReadKind.text => ReadResult.text buf enc
  | ReadKind.dataURL => ReadResult.dataURL buf
  | ReadKind.binaryString => ReadResult.binaryString buf
  | ReadKind.arrayBuffer => ReadResult.arrayBuffer buf

/-- The shared helper `readAs(what, fullPath, encoding, startPos,
endPos)`, lines 457-488 of `File.js` (the four exported `readAs*`
operations all delegate to it).  An `fs.open(fullPath, 'r')` failure is
mapped to NOT_FOUND; a read failure (e.g. EISDIR when the opened path is
a directory) is caught and mapped to NOT_READABLE; a successful read
resolves with the converted representation.  The filesystem is not
modified. -/
def readAs (fs : FS) (kind : ReadKind) (fullPath : String)
    (enc : Option String) (startPos endPos : Nat) : Except Rejection ReadResult :=
  match stat fs fullPath with
  | none => Except.error (Rejection.fe FileError.NOT_FOUND_ERR)
  | some FsNode.dir => Except.error (Rejection.fe FileError.NOT_READABLE_ERR)
  | some (FsNode.file c) =>
      Except.ok (convert kind enc (readRange c startPos endPos))

/-- Claim C3 counterexample: `write` on a path that is a directory — the
native `fs.open(fileName, 'a')` fails EISDIR, and because the source
attaches no error mapping to the open/write chain, the raw Node error
(not one of the twelve fixed tags) is what the caller's promise is
rejected with. -/
theorem c3_write_raw_error_escapes :
    write ⟨[("d/", FsNode.dir)], []⟩ "d/" (WriteData.bytes [1]) 0 =
      (Except.error (Rejection.native "EISDIR"), ⟨[("d/", FsNode.dir)], []⟩)
    ∧ Rejection.isFixedTag (Rejection.native "EISDIR") = false := by
  constructor
  · rfl
  · rfl

/-- Claim C3 (amended): every rejection produced by the shared `readAs`
helper is one of the twelve fixed error-kind tags — its native open and
read failures are each caught at their call site and mapped (open →
NOT_FOUND, read → NOT_READABLE).  The corresponding guarantee fails for
`write`, whose open/write failures escape as raw native errors (see the
counterexample). -/
theorem c3_readAs_rejections_are_fixed_tags (fs : FS) (kind : ReadKind)
    (fullPath : String) (enc : Option String) (startPos endPos : Nat)
    (r : Rejection) (h : readAs fs kind fullPath enc startPos endPos = Except.error r) :
    r.isFixedTag = true := by
  unfold readAs at h
  cases hs : stat fs fullPath with
  | none =>
      rw [hs] at h
      cases h
      rfl
  | some node =>
      cases node with
      | dir =>
          rw [hs] at h
          cases h
          rfl
      | file c =>
          rw [hs] at h
          cases h

/-- Claim C3 witness: `readAs` on a missing path rejects with the fixed
NOT_FOUND tag. -/
theorem c3_witness : Rejection.isFixedTag (Rejection.fe FileError.NOT_FOUND_ERR) = true :=
  c3_readAs_rejections_are_fixed_tags ⟨[], []⟩ ReadKind.text "f" none 0 0
    (Rejection.fe FileError.NOT_FOUND_ERR) rfl

/-- Claim C6 (amended): a falsy `data` argument — absent, or the empty
string — makes `write` fail synchronously with INVALID_MODIFICATION and
leave the filesystem state untouched: no handle is opened, nothing is
created or modified. -/
theorem c6_write_falsy_data_no_effect (fs : FS) (fileName : String)
    (data : WriteData) (position : Nat) (h : data.falsy = true) :
    write fs fileName data position =
      (Except.error (Rejection.fe FileError.INVALID_MODIFICATION_ERR), fs) := by
  simp [write, h]

/-- Claim C6 witness: absent data on a concrete state. -/
theorem c6_witness :
    write ⟨[], []⟩ "f" WriteData.undef 0 =
      (Except.error (Rejection.fe FileError.INVALID_MODIFICATION_ERR), ⟨[], []⟩) :=
  c6_write_falsy_data_no_effect ⟨[], []⟩ "f" WriteData.undef 0 rfl

/-- Claim C6 counterexample: an *empty binary* payload is empty data but
is truthy in JavaScript, so `write` does not reject it — it opens the
file in append mode (creating it when absent, a filesystem mutation) and
resolves with 0 bytes written. -/
theorem c6_empty_bytes_touches_fs :
    write ⟨[], []⟩ "f" (WriteData.bytes []) 0 =
      (Except.ok 0, ⟨[("f", FsNode.file [])], []⟩)
    ∧ (⟨[("f", FsNode.file [])], []⟩ : FS) ≠ (⟨[], []⟩ : FS) := by
  constructor
  · rfl
  · intro hcontra
    cases hcontra

/-- `true` iff the probe result is a directory node. -/
def isDirOpt : Option FsNode → Bool
  | some FsNode.dir => true
  | _ => false

/-- `fs.copyFile(srcPath, dst)`: fails when the source is missing or a
directory, or when the destination is an existing directory; otherwise
the destination is created or overwritten with the source's content. -/
def copyFile (fs : FS) (src dst : String) : Option FS :=
  match stat fs src with
  | some (FsNode.file c) =>
      if isDirOpt (stat fs dst) then none
      else some (setEntry fs dst (FsNode.file c))
  | _ => none

/-- `exports.copyTo(srcPath, dstDir, dstName)`, lines 375-390 of
`File.js`: a native `fs.copyFile` (failure → INVALID_MODIFICATION)
followed by `exports.getFile([dstDir, dstName])` — with no options, so
`{create:false, exclusive:false}` — to build the returned entry. -/
def copyTo (fs : FS) (srcPath dstDir dstName : String) :
    Except FileError Entry × FS :=
  match copyFile fs srcPath (dstDir ++ dstName) with
  | none => (Except.error FileError.INVALID_MODIFICATION_ERR, fs)
  | some fs1 => getFile fs1 dstDir dstName ⟨false, false⟩

/-- `exports.moveTo(srcPath, dstDir, dstName)`, lines 392-401 of
`File.js`: `copyTo` followed by `remove` of the source; on success the
promise resolves with the entry `copyTo` built for the destination.
There is no compensating logic: when the remove step fails, its error is
surfaced and the already-copied destination is left in place. -/
def moveTo (fs : FS) (srcPath dstDir dstName : String) :
    Except FileError Entry × FS :=
  match copyTo fs srcPath dstDir dstName with
  | (Except.error e, fs1) => (Except.error e, fs1)
  | (Except.ok entry, fs1) =>
      match remove fs1 srcPath with
      | (Except.error e, fs2) => (Except.error e, fs2)
      | (Except.ok _, fs2) => (Except.ok entry, fs2)

/-- Claim C7: `moveTo` of a source file.  When the remove step fails
(write-protected source, simulating permission denial), the copy's
effect stays applied — the destination exists with the copied content —
and the remove step's NO_MODIFICATION_ALLOWED error is surfaced without
deleting the destination.  On full success the result is exactly the
entry `copyTo` constructed for the destination, the source is gone, and
the destination holds the source's content. -/
theorem c7_moveTo_two_step (fs : FS) (src dstDir dstName : String)
    (c : List Nat) (h1 : stat fs src = some (FsNode.file c))
    (h2 : isDirOpt (stat fs (dstDir ++ dstName)) = false)
    (h3 : src ≠ dstDir ++ dstName) :
    (fs.denied.contains src = true →
      moveTo fs src dstDir dstName =
        (Except.error FileError.NO_MODIFICATION_ALLOWED_ERR,
         setEntry fs (dstDir ++ dstName) (FsNode.file c))
      ∧ stat (setEntry fs (dstDir ++ dstName) (FsNode.file c))
          (dstDir ++ dstName) = some (FsNode.file c))
    ∧ (fs.denied.contains src = false →
      moveTo fs src dstDir dstName =
        (Except.ok ⟨basename (dstDir ++ dstName), dstDir ++ dstName, false⟩,
         removeEntry (setEntry fs (dstDir ++ dstName) (FsNode.file c)) src)
      ∧ stat (removeEntry (setEntry fs (dstDir ++ dstName) (FsNode.file c)) src)
          src = none
      ∧ stat (removeEntry (setEntry fs (dstDir ++ dstName) (FsNode.file c)) src)
          (dstDir ++ dstName) = some (FsNode.file c)) := by
  have hstat1 : stat (setEntry fs (dstDir ++ dstName) (FsNode.file c))
      (dstDir ++ dstName) = some (FsNode.file c) :=
    stat_setEntry_self fs (dstDir ++ dstName) (FsNode.file c)
  have hstatSrc : stat (setEntry fs (dstDir ++ dstName) (FsNode.file c)) src =
      some (FsNode.file c) := by
    rw [stat_setEntry_other fs (dstDir ++ dstName) src (FsNode.file c) h3]
    exact h1
  have hdenied : (setEntry fs (dstDir ++ dstName) (FsNode.file c)).denied =
      fs.denied := rfl
  constructor
  · intro hd
    have hdm : src ∈ fs.denied := by simpa using hd
    constructor
    · simp [moveTo, copyTo, copyFile, h1, h2, getFile, hstat1, remove,
        hstatSrc, unlink, hdenied, hdm]
    · exact hstat1
  · intro hd
    have hdm : src ∉ fs.denied := by simpa using hd
    refine ⟨?_, ?_, ?_⟩
    · simp [moveTo, copyTo, copyFile, h1, h2, getFile, hstat1, remove,
        hstatSrc, unlink, hdenied, hdm, removeEntry]
    · exact stat_removeEntry_self _ src
    · rw [stat_removeEntry_other _ src (dstDir ++ dstName) (Ne.symm h3)]
      exact hstat1

/-- Claim C7 witness: a source file `s` with content `[1, 2]`, once with
the source write-protected (the remove step fails and the destination
`o/t` survives with the copied content), once without (the move
completes, the source is gone, the destination holds the content). -/
theorem c7_witness :
    (moveTo ⟨[("s", FsNode.file [1, 2])], ["s"]⟩ "s" "o/" "t" =
      (Except.error FileError.NO_MODIFICATION_ALLOWED_ERR,
       setEntry ⟨[("s", FsNode.file [1, 2])], ["s"]⟩ ("o/" ++ "t")
         (FsNode.file [1, 2])))
    ∧ (moveTo ⟨[("s", FsNode.file [1, 2])], []⟩ "s" "o/" "t" =
      (Except.ok ⟨basename ("o/" ++ "t"), "o/" ++ "t", false⟩,
       removeEntry (setEntry ⟨[("s", FsNode.file [1, 2])], []⟩ ("o/" ++ "t")
         (FsNode.file [1, 2])) "s")) :=
  ⟨((c7_moveTo_two_step ⟨[("s", FsNode.file [1, 2])], ["s"]⟩ "s" "o/" "t" [1, 2]
      (by decide) (by decide) (by decide)).1 (by decide)).1,
   ((c7_moveTo_two_step ⟨[("s", FsNode.file [1, 2])], []⟩ "s" "o/" "t" [1, 2]
      (by decide) (by decide) (by decide)).2 (by decide)).1⟩

/-- The observable events of one operation, in the order the promise
chain of the source produces them: handle opened, positioned read,
positioned write, handle closed, and delivery of the operation's result
(resolution or rejection) to the caller. -/
inductive Event where
  | openEv
  | readEv
  | writeEv
  | closeEv
  | resultEv
deriving DecidableEq, Repr

/-- Event trace of `readAs` (lines 457-488): an open failure rejects
with no handle ever opened; otherwise the positioned read runs, the
result is delivered *inside* the read's `.then`/`.catch` handler —
`resolve(...)`/`reject(...)` — and only the subsequent
`.then(() => promisify(fs.close)(fd))` closes the handle, so the close
follows the result delivery. -/
def readAsTrace (fs : FS) (fullPath : String) : List Event :=
  match stat fs fullPath with
  | none => [Event.resultEv]
  | some _ => [Event.openEv, Event.readEv, Event.resultEv, Event.closeEv]

/-- Event trace of `write` (lines 196-215): a falsy payload rejects
synchronously; an open failure rejects with no handle opened; otherwise
the write runs, the `.finally(() => promisify(fs.close)(fd))` closes the
handle — and `.finally` awaits that close — before the outer
`.then(() => bytesWritten)` delivers the result. -/
def writeTrace (fs : FS) (fileName : String) (data : WriteData) : List Event :=
  if data.falsy then [Event.resultEv]
  else
    match stat fs fileName with
    | some FsNode.dir => [Event.resultEv]
    | _ => [Event.openEv, Event.writeEv, Event.closeEv, Event.resultEv]

/-- Helper: scans the trace, requiring every result delivery to be
preceded by a close. -/
def resultAfterClose : Bool → List Event → Bool
  | _, [] => true
  | _, Event.closeEv :: rest => resultAfterClose true rest
  | seen, Event.resultEv :: rest => seen && resultAfterClose seen rest
  | seen, _ :: rest => resultAfterClose seen rest

/-- The handle discipline claimed by the spec, as a predicate on a
trace: if a handle was opened, then it is closed, and the close precedes
the delivery of the result. -/
def handleDiscipline (tr : List Event) : Bool :=
  !(tr.contains Event.openEv) ||
    (tr.contains Event.closeEv && resultAfterClose false tr)

/-- Claim C9 counterexample: reading an existing one-byte file.  The
`readAs` trace opens the handle, reads, delivers the result, and only
then closes — the close does not complete before the result is
delivered, so the claimed discipline fails on this concrete trace. -/
theorem c9_readAs_result_before_close :
    readAsTrace ⟨[("f", FsNode.file [7])], []⟩ "f" =
      [Event.openEv, Event.readEv, Event.resultEv, Event.closeEv]
    ∧ handleDiscipline (readAsTrace ⟨[("f", FsNode.file [7])], []⟩ "f") = false := by
  constructor
  · rfl
  · rfl

/-- Claim C9 (amended): every opened handle is closed on every exit path
of both `readAs` and `write`; for `write` the close moreover completes
before the result is delivered (its close sits in a `.finally` the outer
chain awaits), whereas `readAs` delivers its result first and closes
afterwards. -/
theorem c9_handles_always_closed (fs : FS) (p fn : String) (data : WriteData) :
    ((readAsTrace fs p).contains Event.openEv →
      (readAsTrace fs p).contains Event.closeEv)
    ∧ handleDiscipline (writeTrace fs fn data) = true := by
  constructor
  · intro hopen
    cases hs : stat fs p with
    | none => simp [readAsTrace, hs, List.contains] at hopen
    | some node => simp [readAsTrace, hs, List.contains]
  · unfold handleDiscipline writeTrace
    by_cases hf : data.falsy
    · simp [hf, List.contains, resultAfterClose]
    · simp only [hf, Bool.false_eq_true, if_false]
      cases hs : stat fs fn with
      | none => rfl
      | some node => cases node with
        | dir => rfl
        | file c => rfl

/-- Claim C9 witness: a concrete read of an existing file closes its
handle, and a concrete write satisfies the close-before-result
discipline. -/
theorem c9_witness :
    (readAsTrace ⟨[("g", FsNode.file [1])], []⟩ "g").contains Event.closeEv = true
    ∧ handleDiscipline
        (writeTrace ⟨[("g", FsNode.file [1])], []⟩ "g" (WriteData.bytes [2])) = true :=
  ⟨(c9_handles_always_closed ⟨[("g", FsNode.file [1])], []⟩ "g" "g"
      (WriteData.bytes [2])).1 (by decide),
   (c9_handles_always_closed ⟨[("g", FsNode.file [1])], []⟩ "g" "g"
      (WriteData.bytes [2])).2⟩

/-- JavaScript values as they arrive in an operation's `args` array:
strings, (possibly nested) arrays, or `undefined`. -/
inductive JVal where
  | str (s : String)
  | arr (xs : List JVal)
  | undef

/-- `getArgs(args)`, lines 46-53 of `File.js`: when `args` is an array
of length one whose sole element is itself an array, return that inner
array; otherwise return `args` unchanged.  This undoes the extra layer
of array nesting the electron context bridge adds. -/
def getArgs : JVal → JVal
  | JVal.arr [JVal.arr ys] => JVal.arr ys
  | v => v

/-- JavaScript indexing `args[i]` (out-of-range or non-array gives
`undefined`). -/
def jvIdx (v : JVal) (i : Nat) : JVal :=
  match v with
  | JVal.arr xs => xs.getD i JVal.undef
  | _ => JVal.undef

/-- `exports.getMetadata(args)`, lines 166-179 of `File.js`.  Unlike
every other exported operation, it does *not* call `getArgs` first: it
stats `args[0]` directly.  A stat failure rejects NOT_FOUND; success
resolves with the modification time and size (the model carries the
size, timestamps being unmodelled).  When `args[0]` is not a string —
as happens when the argument list arrives doubly-wrapped, making
`args[0]` the inner array — `fs.stat` throws `ERR_INVALID_ARG_TYPE`
inside the promise executor, so the promise rejects with that raw
native error. -/
def getMetadata (fs : FS) (args : JVal) : Except Rejection Nat :=
  match jvIdx args 0 with
  | JVal.str p =>
      match stat fs p with
      | none => Except.error (Rejection.fe FileError.NOT_FOUND_ERR)
      | some FsNode.dir => Except.ok 0
      | some (FsNode.file c) => Except.ok c.length
  | _ => Except.error (Rejection.native "ERR_INVALID_ARG_TYPE")

/-- Claim C5 (code bug): the boundary normalization is not applied
before every operation's logic.  `getArgs` does unwrap a doubly-wrapped
list, but `getMetadata` never calls it: on the flat argument list it
resolves with the file's metadata, while on the doubly-wrapped form of
the very same arguments it rejects with a raw native type error — the
two behaviours differ. -/
theorem c5_getMetadata_skips_unwrapping :
    getArgs (JVal.arr [JVal.arr [JVal.str "a"]]) = JVal.arr [JVal.str "a"]
    ∧ getMetadata ⟨[("a", FsNode.file [9])], []⟩ (JVal.arr [JVal.str "a"]) =
        Except.ok 1
    ∧ getMetadata ⟨[("a", FsNode.file [9])], []⟩
        (JVal.arr [JVal.arr [JVal.str "a"]]) =
        Except.error (Rejection.native "ERR_INVALID_ARG_TYPE")
    ∧ getMetadata ⟨[("a", FsNode.file [9])], []⟩
        (JVal.arr [JVal.arr [JVal.str "a"]]) ≠
      getMetadata ⟨[("a", FsNode.file [9])], []⟩ (JVal.arr [JVal.str "a"]) := by
  refine ⟨rfl, rfl, rfl, ?_⟩
  intro hcontra
  simp [getMetadata, jvIdx, stat, lookupP] at hcontra

/-- `true` iff `t` occurs in `s` starting at character index `i`. -/
def subAt (s t : String) (i : Nat) : Bool :=
  List.isPrefixOf t.data (s.data.drop i)

/-- `String.prototype.indexOf`: the first character index at which `t`
occurs in `s`, or `none` (JavaScript's `-1`). -/
def idxOf (s t : String) : Option Nat :=
  (List.range (s.data.length + 1)).find? (fun i => subAt s t i)

/-- `true` iff `t` occurs somewhere in `s` (`indexOf(t) !== -1`, and the
`regex.test` calls of the decode heuristic). -/
def hasSub (s t : String) : Bool :=
  (idxOf s t).isSome

/-- `String.prototype.trim`: strip leading and trailing whitespace. -/
def trimStr (s : String) : String :=
  String.mk (((s.data.dropWhile Char.isWhitespace).reverse.dropWhile
    Char.isWhitespace).reverse)

/-- `String.prototype.substr(0, n)`: the first `n` characters. -/
def strTake (s : String) (n : Nat) : String :=
  String.mk (s.data.take n)

/-- `String.prototype.substr(n)`: everything from character `n` on. -/
def strDrop (s : String) (n : Nat) : String :=
  String.mk (s.data.drop n)

/-- The numeric value of a hexadecimal digit. -/
def hexVal (c : Char) : Option Nat :=
  if '0' ≤ c ∧ c ≤ '9' then some (c.toNat - '0'.toNat)
  else if 'a' ≤ c ∧ c ≤ 'f' then some (c.toNat - 'a'.toNat + 10)
  else if 'A' ≤ c ∧ c ≤ 'F' then some (c.toNat - 'A'.toNat + 10)
  else none

/-- Percent-decoding of `%XX` escapes: a model of the platform
`decodeURI` builtin invoked at line 409 (no claim exercises the decoded
characters themselves). -/
def pctDecode : List Char → List Char
  | '%' :: a :: b :: rest =>
      match hexVal a, hexVal b with
      | some x, some y => Char.ofNat (16 * x + y) :: pctDecode rest
      | _, _ => '%' :: pctDecode (a :: b :: rest)
  | c :: rest => c :: pctDecode rest
  | [] => []

/-- Lines 407-410 of `File.js`: the input is percent-decoded once iff it
contains a literal `%5` or `%20` substring. -/
def maybeDecode (uri : String) : String :=
  if hasSub uri "%5" || hasSub uri "%20" then String.mk (pctDecode uri.data)
  else uri

/-- The `pathsPrefix` table (lines 34-41): the six storage roots, each
an absolute native path with a trailing separator, computed once from
platform directory queries (held abstract here). -/
structure PathsPrefix where
  applicationDirectory : String
  dataDirectory : String
  externalDataDirectory : String
  cacheDirectory : String
  tempDirectory : String
  documentsDirectory : String
deriving DecidableEq, Repr

/-- What `resolveLocalFileSystemURI` decides before any filesystem
access: return `undefined` (the discarded-rejection branch), return an
already-rejected promise, or proceed to `fs.stat` on a concrete path. -/
inductive ResolveStep where
  | retUndefined
  | earlyReject (e : FileError)
  | statPath (p : String)
deriving DecidableEq, Repr

/-- The pre-probe part of `exports.resolveLocalFileSystemURI`, lines
403-432 of `File.js`, applied to the (already percent-decoded) path.
If the trimmed path starts with `cdvfile`: when the path does not
contain `cdvfile://localhost` the source executes
`Promise.reject(FileError.ENCODING_ERR); return;` — the rejected
promise is created but *not returned*, so the function returns
`undefined` (`retUndefined`).  Otherwise the storage class is located
with unanchored `indexOf` searches for `application` / `persistent` /
`temporary`, in that order, and the remainder after the match is
appended to the matching root; when none of the three substrings occurs
anywhere, the function returns `Promise.reject(ENCODING_ERR)`
(`earlyReject`).  A non-`cdvfile` path goes straight to the probe. -/
def resolveStep (pp : PathsPrefix) (path : String) : ResolveStep :=
  if strTake (trimStr path) 7 = "cdvfile" then
    if !(hasSub path "cdvfile://localhost") then ResolveStep.retUndefined
    else
      match idxOf path "application" with
      | some i => ResolveStep.statPath (pp.applicationDirectory ++ strDrop path (i + 12))
      | none =>
          match idxOf path "persistent" with
          | some i => ResolveStep.statPath (pp.dataDirectory ++ strDrop path (i + 11))
          | none =>
              match idxOf path "temporary" with
              | some i => ResolveStep.statPath (pp.tempDirectory ++ strDrop path (i + 10))
              | none => ResolveStep.earlyReject FileError.ENCODING_ERR
  else ResolveStep.statPath path

/-- `exports.resolveLocalFileSystemURI(uri)` in full: decode, resolve
the symbolic form, then (when a path survives) probe it — missing path
rejects NOT_FOUND, an existing one resolves to a directory or file
entry.  The `Option` layer records the source's `undefined` return on
the wrong-host branch: `none` means the caller receives no promise at
all. -/
def resolveLocalFileSystemURI (pp : PathsPrefix) (fs : FS) (uri : String) :
    Option (Except FileError Entry) :=
  match resolveStep pp (maybeDecode uri) with
  | ResolveStep.retUndefined => none
  | ResolveStep.earlyReject e => some (Except.error e)
  | ResolveStep.statPath p =>
      match stat fs p with
      | none => some (Except.error FileError.NOT_FOUND_ERR)
      | some FsNode.dir => some (Except.ok ⟨basename p, p, true⟩)
      | some (FsNode.file _) => some (Except.ok ⟨basename p, p, false⟩)

/-- A fixed concrete storage-root table for evaluating the resolver. -/
def samplePaths : PathsPrefix :=
  ⟨"/approot/", "/data/", "/data/", "/cache/", "/tmp/", "/docs/"⟩

/-- Claim C4 (code bug): a `cdvfile` URI whose authority is not
`localhost` is supposed to yield a promise rejected with ENCODING, but
the source discards the rejected promise it builds (`Promise.reject(...)`
without `return`, lines 415-416) and returns `undefined` — the caller
receives no promise at all, on any filesystem state. -/
theorem c4_wrong_host_returns_undefined :
    resolveLocalFileSystemURI samplePaths ⟨[], []⟩ "cdvfile://evil/x" = none := by
  rfl

/-- Claim C8 (amended): a `cdvfile://localhost` URI rejects ENCODING
before any filesystem access exactly when *none* of the substrings
`application`, `persistent`, `temporary` occurs anywhere in it: the
decision is `earlyReject`, made before the probe, and the result is the
same for every filesystem state.  (The class token is located by
unanchored substring search, not parsed positionally — see the
counterexample for an unrecognized token followed by one of these words
deeper in the path.) -/
theorem c8_no_class_substring_rejects_encoding (pp : PathsPrefix) (uri : String)
    (h1 : strTake (trimStr uri) 7 = "cdvfile")
    (h2 : hasSub uri "cdvfile://localhost" = true)
    (h3 : hasSub uri "application" = false)
    (h4 : hasSub uri "persistent" = false)
    (h5 : hasSub uri "temporary" = false)
    (h6 : hasSub uri "%5" = false)
    (h7 : hasSub uri "%20" = false) :
    resolveStep pp (maybeDecode uri) = ResolveStep.earlyReject FileError.ENCODING_ERR
    ∧ ∀ fs : FS, resolveLocalFileSystemURI pp fs uri =
        some (Except.error FileError.ENCODING_ERR) := by
  have hdec : maybeDecode uri = uri := by simp [maybeDecode, h6, h7]
  have h3n : idxOf uri "application" = none := by
    cases hx : idxOf uri "application" with
    | none => rfl
    | some i => rw [hasSub, hx] at h3; simp at h3
  have h4n : idxOf uri "persistent" = none := by
    cases hx : idxOf uri "persistent" with
    | none => rfl
    | some i => rw [hasSub, hx] at h4; simp at h4
  have h5n : idxOf uri "temporary" = none := by
    cases hx : idxOf uri "temporary" with
    | none => rfl
    | some i => rw [hasSub, hx] at h5; simp at h5
  have hstep : resolveStep pp (maybeDecode uri) =
      ResolveStep.earlyReject FileError.ENCODING_ERR := by
    rw [hdec]
    simp [resolveStep, h1, h2, h3n, h4n, h5n]
  refine ⟨hstep, fun fs => ?_⟩
  simp [resolveLocalFileSystemURI, hstep]

/-- Claim C8 witness: `cdvfile://localhost/foo/bar` — an unrecognized
class token and no class word elsewhere — rejects ENCODING on a
concrete filesystem. -/
theorem c8_witness :
    resolveLocalFileSystemURI samplePaths ⟨[], []⟩ "cdvfile://localhost/foo/bar" =
      some (Except.error FileError.ENCODING_ERR) :=
  (c8_no_class_substring_rejects_encoding samplePaths "cdvfile://localhost/foo/bar"
    (by decide) (by decide) (by decide) (by decide) (by decide) (by decide)
    (by decide)).2 ⟨[], []⟩

/-- Claim C8 counterexample: `cdvfile://localhost/foo/application` has
the unrecognized class token `foo`, yet it is *not* rejected with
ENCODING — the unanchored search finds `application` later in the path,
resolves against the application root, and probes the filesystem
(yielding NOT_FOUND on the empty state). -/
theorem c8_unrecognized_token_not_encoding :
    resolveLocalFileSystemURI samplePaths ⟨[], []⟩
        "cdvfile://localhost/foo/application" =
      some (Except.error FileError.NOT_FOUND_ERR)
    ∧ resolveLocalFileSystemURI samplePaths ⟨[], []⟩
        "cdvfile://localhost/foo/application" ≠
      some (Except.error FileError.ENCODING_ERR) := by
  constructor
  · rfl
  · intro hcontra
    rw [show resolveLocalFileSystemURI samplePaths ⟨[], []⟩
        "cdvfile://localhost/foo/application" =
        some (Except.error FileError.NOT_FOUND_ERR) from rfl] at hcontra
    cases hcontra
